import Mathlib

/-!
Shallow embedding of the request-vacumer monitoring pipeline:
the keyword filter (`message-filter.service`), the environment-based
configuration loader (`monitoring.config`), the polling dedup logic
(`chat-polling.service`), the delayed-message scheduler
(`delayed-message.service`) and the delayed-payload construction
(`chat-monitor.service`), together with theorems settling the spec claims.
-/

/-- Whitespace as recognized by `String.prototype.trim` (ASCII fragment). -/
def isWsChar (c : Char) : Bool :=
  c == ' ' || c == '\t' || c == '\n' || c == '\r'

/-- Drop leading and trailing whitespace from a character list. -/
def trimChars (cs : List Char) : List Char :=
  ((cs.dropWhile isWsChar).reverse.dropWhile isWsChar).reverse

/-- JS `String.prototype.trim`. -/
def jsTrim (s : String) : String := String.mk (trimChars s.data)

/-- JS `String.prototype.toLowerCase` (character-wise lowering). -/
def jsToLower (s : String) : String := String.mk (s.data.map Char.toLower)

/-- JS `String.prototype.length` (character count; equal to the UTF-16
count on the basic plane, which covers every string this program handles). -/
def jsLength (s : String) : Nat := s.data.length

/-- Is the first character list a prefix of the second? -/
def charsStartWith : List Char → List Char → Bool
  | [], _ => true
  | _ :: _, [] => false
  | a :: as, b :: bs => a == b && charsStartWith as bs

/-- Does the second character list contain the first as a contiguous run? -/
def charsContain (needle : List Char) : List Char → Bool
  | [] => needle.isEmpty
  | c :: rest => charsStartWith needle (c :: rest) || charsContain needle rest

/-- JS `String.prototype.includes`: substring containment. -/
def jsIncludes (s sub : String) : Bool :=
  charsContain sub.data s.data

/-- Mirror of the `MonitoringConfig` interface of `monitoring.config.ts`.
`defaultDelayMinutes : Option Int` uses `none` to model `NaN` from `parseInt`. -/
structure MonitoringConfig where
  targetChats : List String
  keywords : List String
  targetChatId : String
  excludeKeywords : Option (List String) := none
  minMessageLength : Option Nat := none
  delayedMessagesEnabled : Bool := false
  defaultDelayMinutes : Option Int := some 30
  logChatId : Option String := none
  delayedMessage : Option String := none
deriving Repr, DecidableEq

/-- Mirror of the `FilterResult` interface of `message-filter.service.ts`. -/
structure FilterResult where
  shouldForward : Bool
  matchedKeywords : List String
  reason : Option String
deriving Repr, DecidableEq

/-- The normalization applied in `filterMessage`:
`messageText.toLowerCase().trim()`. -/
def normalizeText (messageText : String) : String :=
  jsTrim (jsToLower messageText)

/-- The minimum-length guard of `filterMessage`:
`config.minMessageLength && normalizedText.length < config.minMessageLength`
(`0` is falsy in JS, hence the `0 < m` conjunct). -/
def minLengthRejects (config : MonitoringConfig) (normalizedText : String) : Bool :=
  match config.minMessageLength with
  | some m => decide (0 < m) && decide (jsLength normalizedText < m)
  | none => false

/-- The exclude keywords found in the normalized text:
`config.excludeKeywords.filter(k => normalizedText.includes(k))`
(empty when `excludeKeywords` is absent). -/
def foundExcludeKeywords (config : MonitoringConfig) (normalizedText : String) : List String :=
  match config.excludeKeywords with
  | some eks => eks.filter (fun k => jsIncludes normalizedText k)
  | none => []

/-- Tail of `filterMessage`: the include-keyword check. -/
def keywordCheck (config : MonitoringConfig) (normalizedText : String) : FilterResult :=
  let matched := config.keywords.filter (fun k => jsIncludes normalizedText k)
  if 0 < matched.length then
    { shouldForward := true, matchedKeywords := matched,
      reason := some ("Matched keywords: " ++ String.intercalate ", " matched) }
  else
    { shouldForward := false, matchedKeywords := [], reason := some "No keywords matched" }

/-- The exclude-keyword branch of `filterMessage`. -/
def excludeCheck (config : MonitoringConfig) (normalizedText : String) : FilterResult :=
  match config.excludeKeywords with
  | some eks =>
      if 0 < eks.length then
        let found := eks.filter (fun k => jsIncludes normalizedText k)
        if 0 < found.length then
          { shouldForward := false, matchedKeywords := [],
            reason := some ("Contains exclude keywords: " ++ String.intercalate ", " found) }
        else keywordCheck config normalizedText
      else keywordCheck config normalizedText
  | none => keywordCheck config normalizedText

/-- `MessageFilterService.filterMessage`, transcribed branch by branch. -/
def filterMessage (messageText : String) (config : MonitoringConfig) : FilterResult :=
  if jsLength (jsTrim messageText) == 0 then
    { shouldForward := false, matchedKeywords := [], reason := some "Empty message" }
  else
    let normalizedText := normalizeText messageText
    if minLengthRejects config normalizedText then
      { shouldForward := false, matchedKeywords := [],
        reason := some ("Message too short (" ++ toString (jsLength normalizedText) ++ " < "
          ++ toString (config.minMessageLength.getD 0) ++ ")") }
    else
      excludeCheck config normalizedText

/-- The delayed-payload builder `ChatMonitorService.createDelayedMessage`:
`return this.config.delayedMessage || 'Привет! Пиши в ЛС.'`
(the three arguments are received but never read; `||` treats the empty
string as falsy). -/
def createDelayedMessage (config : MonitoringConfig) (originalMessage chatTitle : String)
    (matchedKeywords : List String) : String :=
  match config.delayedMessage with
  | some s => if jsLength s == 0 then "Привет! Пиши в ЛС." else s
  | none => "Привет! Пиши в ЛС."

/-- The environment variables read by `getMonitoringConfig`
(`none` models an unset variable). -/
structure MonitoringEnv where
  targetChatsVar : Option String
  keywordsVar : Option String
  targetChatIdVar : Option String
  excludeKeywordsVar : Option String := none
  minMessageLengthVar : Option String := none
  delayedMessagesEnabledVar : Option String := none
  defaultDelayMinutesVar : Option String := none
  logChatIdVar : Option String := none
  delayedMessageVar : Option String := none
deriving Repr, DecidableEq

/-- JS falsiness of an optional environment string:
unset or the empty string. -/
def envFalsy : Option String → Bool
  | none => true
  | some s => jsLength s == 0

/-- JS `String.prototype.split(',')` over character lists. -/
def splitCommaChars : List Char → List (List Char)
  | [] => [[]]
  | c :: rest =>
      match splitCommaChars rest with
      | [] => [[]]
      | cur :: done => if c == ',' then [] :: cur :: done else (c :: cur) :: done

/-- JS `s.split(',')`. -/
def splitComma (s : String) : List String :=
  (splitCommaChars s.data).map String.mk

/-- `s.split(',').map(x => x.trim()).filter(x => x.length > 0)`
as used for `TARGET_CHATS`. -/
def splitCommaTrimmed (s : String) : List String :=
  ((splitComma s).map jsTrim).filter (fun t => decide (0 < jsLength t))

/-- `s.split(',').map(x => x.trim().toLowerCase()).filter(x => x.length > 0)`
as used for `KEYWORDS` and `EXCLUDE_KEYWORDS`. -/
def splitCommaTrimmedLower (s : String) : List String :=
  ((splitComma s).map (fun k => jsToLower (jsTrim k))).filter (fun t => decide (0 < jsLength t))

/-- Numeric value of a digit run. -/
def digitsToNat (ds : List Char) : Nat :=
  ds.foldl (fun acc c => acc * 10 + (c.toNat - 48)) 0

/-- JS `parseInt(s, 10)`: leading whitespace skipped, optional sign, longest
digit prefix; `none` models `NaN`. -/
def jsParseInt (s : String) : Option Int :=
  let cs := trimChars s.data
  match cs with
  | '-' :: rest =>
      let ds := rest.takeWhile Char.isDigit
      if ds.isEmpty then none else some (-(digitsToNat ds : Int))
  | '+' :: rest =>
      let ds := rest.takeWhile Char.isDigit
      if ds.isEmpty then none else some ((digitsToNat ds : Int))
  | _ =>
      let ds := cs.takeWhile Char.isDigit
      if ds.isEmpty then none else some ((digitsToNat ds : Int))

/-- The `excludeKeywords` list computed by `getMonitoringConfig`:
`excludeKeywordsEnv ? split-trim-lower : []` (empty string is falsy). -/
def parsedExcludeKeywords (env : MonitoringEnv) : List String :=
  match env.excludeKeywordsVar with
  | some s => if jsLength s == 0 then ([] : List String) else splitCommaTrimmedLower s
  | none => []

/-- The `minMessageLength` field computed by `getMonitoringConfig`:
`minMessageLengthEnv ? parseInt(...) : 0`, then `> 0 ? value : undefined`
(`none` in the inner match models `NaN`, which is not `> 0`). -/
def parsedMinMessageLength (env : MonitoringEnv) : Option Nat :=
  match (match env.minMessageLengthVar with
         | some s => if jsLength s == 0 then some 0 else jsParseInt s
         | none => some 0 : Option Int) with
  | some n => if 0 < n then some n.toNat else none
  | none => none

/-- The `defaultDelayMinutes` field computed by `getMonitoringConfig`:
`defaultDelayMinutesEnv ? parseInt(...) : 30` (`none` models `NaN`). -/
def parsedDefaultDelayMinutes (env : MonitoringEnv) : Option Int :=
  match env.defaultDelayMinutesVar with
  | some s => if jsLength s == 0 then some 30 else jsParseInt s
  | none => some 30

/-- The configuration record `getMonitoringConfig` returns when the three
required variables are truthy. -/
def parsedMonitoringConfig (env : MonitoringEnv) : MonitoringConfig :=
  { targetChats := splitCommaTrimmed (env.targetChatsVar.getD "")
    keywords := splitCommaTrimmedLower (env.keywordsVar.getD "")
    targetChatId := jsTrim (env.targetChatIdVar.getD "")
    excludeKeywords := if 0 < (parsedExcludeKeywords env).length
        then some (parsedExcludeKeywords env) else none
    minMessageLength := parsedMinMessageLength env
    delayedMessagesEnabled := env.delayedMessagesEnabledVar == some "true"
    defaultDelayMinutes := parsedDefaultDelayMinutes env
    logChatId := env.logChatIdVar.map jsTrim
    delayedMessage := env.delayedMessageVar }

/-- `getMonitoringConfig` of `monitoring.config.ts`, transcribed:
the thrown `Error` becomes `Except.error`. -/
def getMonitoringConfig (env : MonitoringEnv) : Except String MonitoringConfig :=
  if envFalsy env.targetChatsVar || envFalsy env.keywordsVar || envFalsy env.targetChatIdVar then
    Except.error "Missing required monitoring configuration. Please set TARGET_CHATS, KEYWORDS, and TARGET_CHAT_ID in environment variables."
  else
    Except.ok (parsedMonitoringConfig env)

/-- A fetched Telegram message as `ChatPollingService` consumes it:
`id = 0` models a falsy `msg.id`, `text = ""` a falsy `msg.message`,
`date` is the platform epoch-seconds timestamp. -/
structure TgMessage where
  id : Nat
  text : String
  date : Nat
deriving Repr, DecidableEq

/-- Observable events of one polling loop iteration:
`processMsg` is the `processNewMessage` call (filter + forward),
`markSeen` the subsequent `processedSet.add`. -/
inductive PollEvent where
  | processMsg (id : Nat)
  | markSeen (id : Nat)
deriving Repr, DecidableEq

/-- `Set.add` on a set of message ids kept as an insertion-ordered list. -/
def setAdd (s : List Nat) (i : Nat) : List Nat :=
  if s.contains i then s else s ++ [i]

/-- The new-message filter of `pollTargetChats`:
`msg.id && !processedSet.has(msg.id) && msg.message`. -/
def isNewMessage (processed : List Nat) (m : TgMessage) : Bool :=
  decide (m.id ≠ 0) && !(processed.contains m.id) && decide (m.text ≠ "")

/-- Timestamp comparison used by the `sort((a, b) => a.date - b.date)` call. -/
def dateLe (a b : TgMessage) : Prop := a.date ≤ b.date

/-- Strict timestamp order. -/
def dateLt (a b : TgMessage) : Prop := a.date < b.date

/-- Distinct timestamps. -/
def dateNe (a b : TgMessage) : Prop := a.date ≠ b.date

instance : DecidableRel dateLe := fun a b => Nat.decLe a.date b.date

instance : DecidableRel dateLt := fun a b => Nat.decLt a.date b.date

instance : DecidableRel dateNe := fun a b => instDecidableNot

instance : IsTotal TgMessage dateLe := ⟨fun a b => Nat.le_total a.date b.date⟩

instance : IsTrans TgMessage dateLe := ⟨fun _ _ _ h1 h2 => Nat.le_trans h1 h2⟩

instance : IsAntisymm TgMessage dateLt :=
  ⟨fun _ _ h1 h2 => absurd h1 (Nat.lt_asymm h2)⟩

/-- The chronological sort of `pollTargetChats`: a stable sort by ascending
`date` (the observable contract of `Array.prototype.sort` with the
comparator `a.date - b.date`). -/
def sortByDate (l : List TgMessage) : List TgMessage :=
  List.insertionSort dateLe l

/-- The per-message loop of `pollTargetChats`: for each sorted new message,
`processNewMessage` runs, then the id is added to the processed set. -/
def processLoop : List Nat → List TgMessage → List Nat × List PollEvent
  | processed, [] => (processed, [])
  | processed, m :: rest =>
      ((processLoop (setAdd processed m.id) rest).1,
       PollEvent.processMsg m.id :: PollEvent.markSeen m.id ::
         (processLoop (setAdd processed m.id) rest).2)

/-- One poll cycle for one chat (`pollTargetChats` body for a single chat):
returns the grown processed set, the processing order, and the event trace. -/
def pollChat (processed : List Nat) (fetched : List TgMessage) :
    List Nat × List TgMessage × List PollEvent :=
  ((processLoop processed (sortByDate (fetched.filter (isNewMessage processed)))).1,
   sortByDate (fetched.filter (isNewMessage processed)),
   (processLoop processed (sortByDate (fetched.filter (isNewMessage processed)))).2)

/-- Successive poll cycles for one chat, one fetched batch per cycle. -/
def runPolling : List Nat → List (List TgMessage) → List Nat × List (List PollEvent)
  | processed, [] => (processed, [])
  | processed, batch :: rest =>
      ((runPolling (pollChat processed batch).1 rest).1,
       (pollChat processed batch).2.2 :: (runPolling (pollChat processed batch).1 rest).2)

/-- `initializeProcessedMessages` for one chat: every fetched message with a
truthy id is added to the processed set before polling starts. -/
def seedProcessed : List Nat → List TgMessage → List Nat
  | processed, [] => processed
  | processed, m :: rest =>
      seedProcessed (if m.id != 0 then setAdd processed m.id else processed) rest

/-- Association-map `get` (JS `Map.prototype.get`). -/
def alookup {β : Type} : List (String × β) → String → Option β
  | [], _ => none
  | p :: rest, k => if p.1 == k then some p.2 else alookup rest k

/-- Association-map `set` (JS `Map.prototype.set`): replace in place or append. -/
def amapSet {β : Type} (m : List (String × β)) (k : String) (v : β) : List (String × β) :=
  if m.any (fun p => p.1 == k) then
    m.map (fun p => if p.1 == k then (k, v) else p)
  else m ++ [(k, v)]

/-- Association-map `delete` (JS `Map.prototype.delete`). -/
def amapDelete {β : Type} (m : List (String × β)) (k : String) : List (String × β) :=
  m.filter (fun p => !(p.1 == k))

/-- `validateTargetChats` of `ChatPollingService`: collects the accessible
chats, throws when none is accessible — and discards the collected list. -/
def validateTargetChats (accessible : String → Bool) (targetChats : List String) :
    Except String (List String) :=
  let validChats := targetChats.filter accessible
  if validChats.length == 0 then
    Except.error "No accessible target chats found in TARGET_CHATS env"
  else Except.ok validChats

/-- The chat loop of `pollTargetChats`: every chat in `config.targetChats` is
attempted (`getEntity`); an inaccessible chat throws, the error is caught and
that chat is skipped for this cycle only. Returns the updated per-chat
processed-id state, the list of attempted chats, and the per-chat processing
order of accessible chats. -/
def pollTargetChatsCycle :
    List String → (String → Bool) → (String → List TgMessage) →
    List (String × List Nat) →
    List (String × List Nat) × List String × List (String × List TgMessage)
  | [], _, _, st => (st, [], [])
  | chatId :: rest, accessible, fetch, st =>
      if accessible chatId then
        ((pollTargetChatsCycle rest accessible fetch
            (amapSet st chatId (pollChat ((alookup st chatId).getD []) (fetch chatId)).1)).1,
         chatId :: (pollTargetChatsCycle rest accessible fetch
            (amapSet st chatId (pollChat ((alookup st chatId).getD []) (fetch chatId)).1)).2.1,
         (chatId, (pollChat ((alookup st chatId).getD []) (fetch chatId)).2.1) ::
           (pollTargetChatsCycle rest accessible fetch
            (amapSet st chatId (pollChat ((alookup st chatId).getD []) (fetch chatId)).1)).2.2)
      else
        ((pollTargetChatsCycle rest accessible fetch st).1,
         chatId :: (pollTargetChatsCycle rest accessible fetch st).2.1,
         (pollTargetChatsCycle rest accessible fetch st).2.2)

/-- Lifecycle state of a `DelayedMessageTask`. -/
inductive TaskStatus where
  | pending
  | sent
  | failed
deriving Repr, DecidableEq

/-- The `originalMessage` snapshot captured at scheduling time
(`messageDate` in epoch milliseconds). -/
structure OriginalMessageInfo where
  text : String
  chatTitle : String
  userName : String
  username : Option String
  messageDate : Nat
deriving Repr, DecidableEq

/-- Mirror of the `DelayedMessageTask` interface of
`delayed-message.service.ts` (`scheduledTime` in epoch milliseconds). -/
structure DelayedMessageTask where
  id : String
  targetUserId : String
  targetChatId : String
  message : String
  scheduledTime : Nat
  originalMessage : OriginalMessageInfo
  status : TaskStatus
  attempts : Nat
  maxAttempts : Nat
deriving Repr, DecidableEq

/-- Set-like insert on a list of keys (JS `Map.set` on a per-task key). -/
def keyAdd (s : List String) (k : String) : List String :=
  if s.contains k then s else s ++ [k]

/-- Set-like removal on a list of keys. -/
def keyRemove (s : List String) (k : String) : List String :=
  s.filter (fun x => !(x == k))

/-- State of `DelayedMessageService` plus the dynamics the proofs need:
`pendingMessages` and `timers` are the two service `Map`s (`timers` keeps
only the keys — each task holds at most one timer handle); `armed` is the
set of task ids whose `setTimeout` is armed, i.e. will still fire unless
`clearTimeout` is called; `usedIds` records every task id ever generated
(`generateTaskId` never repeats an id within a process lifetime);
`attemptLog` records one entry per send attempt (the `client.sendMessage`
call inside `executeDelayedMessage`). -/
structure SchedulerState where
  pendingMessages : List (String × DelayedMessageTask)
  timers : List String
  armed : List String
  usedIds : List String
  attemptLog : List String
deriving Repr, DecidableEq

/-- The scheduler state of a freshly constructed service. -/
def initialSchedulerState : SchedulerState :=
  { pendingMessages := [], timers := [], armed := [], usedIds := [], attemptLog := [] }

/-- The task record `scheduleDelayedMessage` creates: `pending` with
`attempts = 0` and `maxAttempts = 3`. -/
def newDelayedTask (taskId : String) (targetUserId targetChatId message : String)
    (delayMinutes now : Nat) (originalMessage : OriginalMessageInfo) : DelayedMessageTask :=
  { id := taskId
    targetUserId := targetUserId
    targetChatId := targetChatId
    message := message
    scheduledTime := now + delayMinutes * 60 * 1000
    originalMessage := originalMessage
    status := TaskStatus.pending
    attempts := 0
    maxAttempts := 3 }

/-- `scheduleDelayedMessage`: store the new `pending` task and arm the
delay timer. -/
def scheduleDelayedMessage (st : SchedulerState) (taskId : String)
    (targetUserId targetChatId message : String) (delayMinutes now : Nat)
    (originalMessage : OriginalMessageInfo) : SchedulerState :=
  { pendingMessages := amapSet st.pendingMessages taskId
      (newDelayedTask taskId targetUserId targetChatId message delayMinutes now originalMessage)
    timers := keyAdd st.timers taskId
    armed := keyAdd st.armed taskId
    usedIds := keyAdd st.usedIds taskId
    attemptLog := st.attemptLog }

/-- `task.attempts++` at the top of `executeDelayedMessage`. -/
def bumpAttempts (task0 : DelayedMessageTask) : DelayedMessageTask :=
  { task0 with attempts := task0.attempts + 1 }

/-- The task record as `executeDelayedMessage` leaves it:
`sent` on success, unchanged `pending` when a retry is due,
`failed` once `attempts` reaches `maxAttempts`. -/
def executeTask2 (task1 : DelayedMessageTask) (sendOk : Bool) : DelayedMessageTask :=
  if sendOk then { task1 with status := TaskStatus.sent }
  else if task1.attempts < task1.maxAttempts then task1
  else { task1 with status := TaskStatus.failed }

/-- Did the `catch` branch call `scheduleRetry` (failure below the bound)? -/
def executeRetryArmed (task1 : DelayedMessageTask) (sendOk : Bool) : Bool :=
  !sendOk && decide (task1.attempts < task1.maxAttempts)

/-- The `timers` map right before the `finally` block: `scheduleRetry`
stores the fresh retry handle under the same task key. -/
def executeTimers1 (st : SchedulerState) (taskId : String) (task1 : DelayedMessageTask)
    (sendOk : Bool) : List String :=
  if executeRetryArmed task1 sendOk then keyAdd st.timers taskId else st.timers

/-- The armed timeouts right before the `finally` block: the retry timeout
armed by `scheduleRetry` when the send failed below the bound. -/
def executeArmed1 (st : SchedulerState) (taskId : String) (task1 : DelayedMessageTask)
    (sendOk : Bool) : List String :=
  if executeRetryArmed task1 sendOk then keyAdd st.armed taskId else st.armed

/-- The state after the body of `executeDelayedMessage` ran on a found task
(already bumped to `task1`). The `finally` block reads
`this.timers.get(taskId)` — in the retry branch that is the handle
`scheduleRetry` just stored — calls `clearTimeout` on it (disarming that
timeout) and deletes the entry; a terminal task is removed from
`pendingMessages`. -/
def executeAfter (st : SchedulerState) (taskId : String) (task1 : DelayedMessageTask)
    (sendOk : Bool) : SchedulerState :=
  { pendingMessages :=
      if (executeTask2 task1 sendOk).status == TaskStatus.sent
          || (executeTask2 task1 sendOk).status == TaskStatus.failed then
        amapDelete (amapSet st.pendingMessages taskId (executeTask2 task1 sendOk)) taskId
      else amapSet st.pendingMessages taskId (executeTask2 task1 sendOk)
    timers :=
      if (executeTimers1 st taskId task1 sendOk).contains taskId then
        keyRemove (executeTimers1 st taskId task1 sendOk) taskId
      else executeTimers1 st taskId task1 sendOk
    armed :=
      if (executeTimers1 st taskId task1 sendOk).contains taskId then
        keyRemove (executeArmed1 st taskId task1 sendOk) taskId
      else executeArmed1 st taskId task1 sendOk
    usedIds := st.usedIds
    attemptLog := st.attemptLog ++ [taskId] }

/-- `executeDelayedMessage`, transcribed: look the task up, bump `attempts`
(`bumpAttempts`), attempt the send (`sendOk` is the outcome of
`client.sendMessage`), then run the `catch`/`finally` logic (`executeAfter`). -/
def executeDelayedMessage (st : SchedulerState) (taskId : String) (sendOk : Bool) :
    SchedulerState :=
  match alookup st.pendingMessages taskId with
  | none => st
  | some task0 => executeAfter st taskId (bumpAttempts task0) sendOk

/-- A timer firing: the timeout for `taskId` is spent (no longer armed) and
its callback runs `executeDelayedMessage`. -/
def fireTimer (st : SchedulerState) (taskId : String) (sendOk : Bool) : SchedulerState :=
  executeDelayedMessage { st with armed := keyRemove st.armed taskId } taskId sendOk

/-- `cancelDelayedMessage`: absent task is a no-op returning `false`;
otherwise the timer is disarmed and the task removed, returning `true`. -/
def cancelDelayedMessage (st : SchedulerState) (taskId : String) : SchedulerState × Bool :=
  match alookup st.pendingMessages taskId with
  | none => (st, false)
  | some _ =>
      ({ pendingMessages := amapDelete st.pendingMessages taskId
         timers := if st.timers.contains taskId then keyRemove st.timers taskId else st.timers
         armed := if st.timers.contains taskId then keyRemove st.armed taskId else st.armed
         usedIds := st.usedIds
         attemptLog := st.attemptLog }, true)

/-- `getPendingMessages`: the values of the live table. -/
def getPendingMessages (st : SchedulerState) : List DelayedMessageTask :=
  st.pendingMessages.map (fun p => p.2)

/-- `getTask`. -/
def getTask (st : SchedulerState) (taskId : String) : Option DelayedMessageTask :=
  alookup st.pendingMessages taskId

/-- The events that can touch the scheduler state: an armed timer fires
(with some send outcome), `cancelDelayedMessage` is called, or
`scheduleDelayedMessage` is called with a fresh task id. -/
inductive SchedStep : SchedulerState → SchedulerState → Prop where
  | fire (st : SchedulerState) (taskId : String) (sendOk : Bool)
      (armedNow : taskId ∈ st.armed) : SchedStep st (fireTimer st taskId sendOk)
  | cancel (st : SchedulerState) (taskId : String) :
      SchedStep st (cancelDelayedMessage st taskId).1
  | schedule (st : SchedulerState) (taskId targetUserId targetChatId message : String)
      (delayMinutes now : Nat) (om : OriginalMessageInfo)
      (fresh : taskId ∉ st.usedIds) :
      SchedStep st
        (scheduleDelayedMessage st taskId targetUserId targetChatId message delayMinutes now om)

/-- Reachability along scheduler events. -/
def SchedReach (st st2 : SchedulerState) : Prop :=
  Relation.ReflTransGen SchedStep st st2

/-! Concrete instances used by witnesses and counterexamples. -/

/-- A minimal policy with one include keyword. -/
def cfgC1 : MonitoringConfig :=
  { targetChats := ["c1"], keywords := ["offer"], targetChatId := "out" }

/-- Policy with an exclude keyword, as in the spec example. -/
def cfgC2 : MonitoringConfig :=
  { targetChats := ["c1"], keywords := ["offer"], targetChatId := "out",
    excludeKeywords := some ["spam"] }

/-- Policy with a minimum message length, as in the spec example. -/
def cfgC9 : MonitoringConfig :=
  { targetChats := ["c1"], keywords := ["hello"], targetChatId := "out",
    minMessageLength := some 5 }

/-- Environment whose `TARGET_CHATS` is a bare comma: truthy, yet it
yields no chat tokens. -/
def envC8 : MonitoringEnv :=
  { targetChatsVar := some ",", keywordsVar := some "offer", targetChatIdVar := some "out" }

/-- The configuration `getMonitoringConfig` returns for `envC8`:
its `targetChats` is empty. -/
def cfgC8bad : MonitoringConfig :=
  { targetChats := [], keywords := ["offer"], targetChatId := "out" }

/-- Environment that sets `DELAYED_MESSAGE` to the empty string. -/
def envC10 : MonitoringEnv :=
  { targetChatsVar := some "c1", keywordsVar := some "offer", targetChatIdVar := some "out",
    delayedMessageVar := some "" }

/-- The configuration returned for `envC10`. -/
def cfgC10 : MonitoringConfig :=
  { targetChats := ["c1"], keywords := ["offer"], targetChatId := "out",
    delayedMessage := some "" }

/-- Original-message snapshot used in the scheduler scenarios. -/
def om0 : OriginalMessageInfo :=
  { text := "need offer", chatTitle := "Chat", userName := "User",
    username := none, messageDate := 0 }

/-- One freshly scheduled task. -/
def stSched : SchedulerState :=
  scheduleDelayedMessage initialSchedulerState "dm_1" "user1" "chat1" "hi" 30 0 om0

/-- The state after the delay timer fired and the send failed. -/
def stFail1 : SchedulerState := fireTimer stSched "dm_1" false

/-- The state after the delay timer fired and the send succeeded. -/
def stOk1 : SchedulerState := fireTimer stSched "dm_1" true

/-- The task record left behind by the failed first attempt. -/
def pendingStuckTask : DelayedMessageTask :=
  { id := "dm_1", targetUserId := "user1", targetChatId := "chat1", message := "hi",
    scheduledTime := 30 * 60 * 1000, originalMessage := om0,
    status := TaskStatus.pending, attempts := 1, maxAttempts := 3 }

/-- Startup accessibility for the C7 scenario: only chat `a` reachable. -/
def accStartC7 : String → Bool := fun c => c == "a"

/-- Later accessibility for the C7 scenario: chat `b` became reachable. -/
def accLaterC7 : String → Bool := fun _ => true

/-- One message sitting in chat `b`. -/
def msgB : TgMessage := { id := 5, text := "great offer", date := 100 }

/-- Fetch function for the C7 scenario. -/
def fetchC7 : String → List TgMessage := fun c => if c == "b" then [msgB] else []

/-- The per-chat dedup state after the startup cycle of the C7 scenario. -/
def stCycle0C7 : List (String × List Nat) :=
  (pollTargetChatsCycle ["a", "b"] accStartC7 fetchC7 []).1

/-- Three out-of-order messages for the ordering witness. -/
def msgsC6 : List TgMessage :=
  [{ id := 3, text := "offer three", date := 30 },
   { id := 1, text := "offer one", date := 10 },
   { id := 2, text := "offer two", date := 20 }]

/-! Helper lemmas about the small container operations. -/

lemma mem_setAdd {s : List Nat} {i x : Nat} : x ∈ setAdd s i ↔ x ∈ s ∨ x = i := by
  unfold setAdd
  cases hc : s.contains i with
  | false => simp [hc, List.mem_append]
  | true =>
      have hi : i ∈ s := by simpa using hc
      simp only [hc, if_true]
      constructor
      · exact Or.inl
      · rintro (hx | rfl)
        · exact hx
        · exact hi

lemma mem_keyAdd {s : List String} {k x : String} : x ∈ keyAdd s k ↔ x ∈ s ∨ x = k := by
  unfold keyAdd
  cases hc : s.contains k with
  | false => simp [hc, List.mem_append]
  | true =>
      have hi : k ∈ s := by simpa using hc
      simp only [hc, if_true]
      constructor
      · exact Or.inl
      · rintro (hx | rfl)
        · exact hx
        · exact hi

lemma mem_keyRemove {s : List String} {k x : String} :
    x ∈ keyRemove s k ↔ x ∈ s ∧ x ≠ k := by
  simp [keyRemove, List.mem_filter]

lemma alookup_replace_ne {β : Type} (m : List (String × β)) (k k2 : String) (v : β)
    (hne : k2 ≠ k) :
    alookup (m.map (fun p => if p.1 == k then (k, v) else p)) k2 = alookup m k2 := by
  induction m with
  | nil => rfl
  | cons p rest ih =>
      by_cases hp : p.1 = k
      · have hb : (p.1 == k) = true := beq_iff_eq.mpr hp
        have hk2 : (k == k2) = false := beq_eq_false_iff_ne.mpr (fun h => hne h.symm)
        have hp2 : (p.1 == k2) = false := by
          rw [hp]; exact hk2
        simp only [List.map_cons, hb, if_true, alookup, hk2, hp2, Bool.false_eq_true, if_false, ih]
      · have hb : (p.1 == k) = false := beq_eq_false_iff_ne.mpr hp
        simp only [List.map_cons, hb, Bool.false_eq_true, if_false, alookup, ih]

lemma alookup_append_single_ne {β : Type} (m : List (String × β)) (k k2 : String) (v : β)
    (hne : k2 ≠ k) :
    alookup (m ++ [(k, v)]) k2 = alookup m k2 := by
  induction m with
  | nil =>
      have hk2 : (k == k2) = false := beq_eq_false_iff_ne.mpr (fun h => hne h.symm)
      simp [alookup, hk2]
  | cons p rest ih => simp [alookup, ih]

lemma alookup_amapSet_ne {β : Type} (m : List (String × β)) (k k2 : String) (v : β)
    (hne : k2 ≠ k) : alookup (amapSet m k v) k2 = alookup m k2 := by
  unfold amapSet
  by_cases h : m.any (fun p => p.1 == k)
  · simp only [h, if_true]
    exact alookup_replace_ne m k k2 v hne
  · simp only [h, Bool.false_eq_true, if_false]
    exact alookup_append_single_ne m k k2 v hne

lemma alookup_replace_self {β : Type} (m : List (String × β)) (k : String) (v : β)
    (h : m.any (fun p => p.1 == k) = true) :
    alookup (m.map (fun p => if p.1 == k then (k, v) else p)) k = some v := by
  induction m with
  | nil => simp at h
  | cons p rest ih =>
      by_cases hp : p.1 = k
      · have hb : (p.1 == k) = true := beq_iff_eq.mpr hp
        simp only [List.map_cons, hb, if_true, alookup, beq_self_eq_true]
      · have hb : (p.1 == k) = false := beq_eq_false_iff_ne.mpr hp
        simp only [List.any_cons, hb, Bool.false_or] at h
        simp only [List.map_cons, hb, Bool.false_eq_true, if_false, alookup, hb, ih h]

lemma alookup_amapSet_self {β : Type} (m : List (String × β)) (k : String) (v : β) :
    alookup (amapSet m k v) k = some v := by
  unfold amapSet
  by_cases h : m.any (fun p => p.1 == k)
  · simp only [h, if_true]
    exact alookup_replace_self m k v h
  · simp only [h, Bool.false_eq_true, if_false]
    induction m with
    | nil => simp [alookup]
    | cons p rest ih =>
        simp only [List.any_cons, Bool.or_eq_true, not_or] at h
        have hb : (p.1 == k) = false := by
          cases hpk : p.1 == k
          · rfl
          · exact absurd hpk h.1
        simp only [List.cons_append, alookup, hb, Bool.false_eq_true, if_false]
        exact ih (by simpa using h.2)

lemma alookup_amapDelete_self {β : Type} (m : List (String × β)) (k : String) :
    alookup (amapDelete m k) k = none := by
  induction m with
  | nil => rfl
  | cons p rest ih =>
      cases hp : p.1 == k with
      | true => simpa [amapDelete, List.filter_cons, hp] using ih
      | false => simpa [amapDelete, List.filter_cons, hp, alookup] using ih

lemma alookup_amapDelete_ne {β : Type} (m : List (String × β)) (k k2 : String)
    (hne : k2 ≠ k) : alookup (amapDelete m k) k2 = alookup m k2 := by
  induction m with
  | nil => rfl
  | cons p rest ih =>
      cases hp : p.1 == k with
      | true =>
          have hpk : p.1 = k := beq_iff_eq.mp hp
          have hp2 : (p.1 == k2) = false := by
            rw [hpk]; exact beq_eq_false_iff_ne.mpr (fun h => hne h.symm)
          simpa [amapDelete, List.filter_cons, hp, alookup, hp2] using ih
      | false =>
          have ih2 : alookup (List.filter (fun p => !(p.1 == k)) rest) k2 = alookup rest k2 := ih
          simp only [amapDelete, List.filter_cons, hp, Bool.not_false, if_true, alookup, ih2]

lemma count_append_ne {l : List String} {k id : String} (hne : id ≠ k) :
    (l ++ [k]).count id = l.count id := by
  have h1 : [k].count id = 0 := by
    simp [List.count_cons]
    exact fun hk => hne hk.symm
  simp [List.count_append, h1]

/-! Preservation lemmas for the scheduler step relation. -/

lemma executeAfter_pending_ne (st : SchedulerState) (taskId : String)
    (task1 : DelayedMessageTask) (ok : Bool) (id : String) (hne : id ≠ taskId) :
    alookup (executeAfter st taskId task1 ok).pendingMessages id
      = alookup st.pendingMessages id := by
  unfold executeAfter
  dsimp only
  split
  · rw [alookup_amapDelete_ne _ _ _ hne, alookup_amapSet_ne _ _ _ _ hne]
  · rw [alookup_amapSet_ne _ _ _ _ hne]

lemma executeAfter_armed_ne (st : SchedulerState) (taskId : String)
    (task1 : DelayedMessageTask) (ok : Bool) (id : String) (hne : id ≠ taskId) :
    (id ∈ (executeAfter st taskId task1 ok).armed ↔ id ∈ st.armed) := by
  unfold executeAfter
  dsimp only
  unfold executeArmed1
  split
  · split
    · simp [mem_keyRemove, mem_keyAdd, hne]
    · simp [mem_keyRemove, hne]
  · split
    · simp [mem_keyAdd, hne]
    · exact Iff.rfl

lemma executeDelayedMessage_ne (st : SchedulerState) (taskId id : String) (ok : Bool)
    (hne : id ≠ taskId) :
    alookup (executeDelayedMessage st taskId ok).pendingMessages id
      = alookup st.pendingMessages id
    ∧ (id ∈ (executeDelayedMessage st taskId ok).armed ↔ id ∈ st.armed)
    ∧ (executeDelayedMessage st taskId ok).usedIds = st.usedIds
    ∧ (executeDelayedMessage st taskId ok).attemptLog.count id = st.attemptLog.count id := by
  unfold executeDelayedMessage
  cases hl : alookup st.pendingMessages taskId with
  | none => exact ⟨rfl, Iff.rfl, rfl, rfl⟩
  | some task0 =>
      refine ⟨executeAfter_pending_ne st taskId _ ok id hne,
        executeAfter_armed_ne st taskId _ ok id hne, rfl, ?_⟩
      exact count_append_ne hne

lemma cancel_ne (st : SchedulerState) (taskId id : String) (hne : id ≠ taskId) :
    alookup (cancelDelayedMessage st taskId).1.pendingMessages id
      = alookup st.pendingMessages id
    ∧ ((id ∈ (cancelDelayedMessage st taskId).1.armed) → id ∈ st.armed)
    ∧ (cancelDelayedMessage st taskId).1.usedIds = st.usedIds
    ∧ (cancelDelayedMessage st taskId).1.attemptLog = st.attemptLog := by
  unfold cancelDelayedMessage
  cases hl : alookup st.pendingMessages taskId with
  | none => exact ⟨rfl, fun h => h, rfl, rfl⟩
  | some t =>
      refine ⟨alookup_amapDelete_ne _ _ _ hne, ?_, rfl, rfl⟩
      dsimp only
      split
      · exact fun h => (mem_keyRemove.mp h).1
      · exact fun h => h

lemma frozen_step {id : String} {st st2 : SchedulerState}
    (h1 : id ∉ st.armed) (h2 : id ∈ st.usedIds) (hs : SchedStep st st2) :
    id ∉ st2.armed ∧ id ∈ st2.usedIds
    ∧ st2.attemptLog.count id = st.attemptLog.count id
    ∧ (alookup st2.pendingMessages id = alookup st.pendingMessages id
       ∨ alookup st2.pendingMessages id = none) := by
  cases hs with
  | fire taskId ok armedNow =>
      have hne : id ≠ taskId := fun h => h1 (h ▸ armedNow)
      unfold fireTimer
      obtain ⟨hp, ha, hu, hc⟩ :=
        executeDelayedMessage_ne { st with armed := keyRemove st.armed taskId } taskId id ok hne
      refine ⟨?_, ?_, ?_, Or.inl ?_⟩
      · intro hmem
        exact h1 (mem_keyRemove.mp (ha.mp hmem)).1
      · rw [hu]; exact h2
      · exact hc
      · exact hp
  | cancel taskId =>
      by_cases heq : taskId = id
      · subst heq
        unfold cancelDelayedMessage
        cases hl : alookup st.pendingMessages taskId with
        | none => exact ⟨h1, h2, rfl, Or.inl hl⟩
        | some t =>
            refine ⟨?_, h2, rfl, Or.inr (alookup_amapDelete_self _ _)⟩
            dsimp only
            split
            · intro hm; exact h1 (mem_keyRemove.mp hm).1
            · exact h1
      · have hne : id ≠ taskId := fun h => heq h.symm
        obtain ⟨hp, ha, hu, hl⟩ := cancel_ne st taskId id hne
        refine ⟨fun hm => h1 (ha hm), by rw [hu]; exact h2, by rw [hl], Or.inl hp⟩
  | schedule taskId tu tc msg dm now om fresh =>
      have hne : id ≠ taskId := fun h => fresh (h ▸ h2)
      unfold scheduleDelayedMessage
      refine ⟨?_, ?_, rfl, Or.inl ?_⟩
      · dsimp only
        intro hm
        rcases mem_keyAdd.mp hm with hmem | hid
        · exact h1 hmem
        · exact hne hid
      · dsimp only
        exact mem_keyAdd.mpr (Or.inl h2)
      · dsimp only
        exact alookup_amapSet_ne _ _ _ _ hne

lemma frozen_reach {id : String} {st st2 : SchedulerState}
    (h1 : id ∉ st.armed) (h2 : id ∈ st.usedIds) (hr : SchedReach st st2) :
    id ∉ st2.armed ∧ id ∈ st2.usedIds
    ∧ st2.attemptLog.count id = st.attemptLog.count id
    ∧ (alookup st2.pendingMessages id = alookup st.pendingMessages id
       ∨ alookup st2.pendingMessages id = none) := by
  unfold SchedReach at hr
  induction hr with
  | refl => exact ⟨h1, h2, rfl, Or.inl rfl⟩
  | tail hsteps hstep ih =>
      obtain ⟨ih1, ih2, ih3, ih4⟩ := ih
      obtain ⟨s1, s2, s3, s4⟩ := frozen_step ih1 ih2 hstep
      refine ⟨s1, s2, by rw [s3, ih3], ?_⟩
      rcases s4 with hp | hp
      · rcases ih4 with hq | hq
        · exact Or.inl (by rw [hp, hq])
        · exact Or.inr (by rw [hp, hq])
      · exact Or.inr hp

/-! Lemmas about the polling dedup loop. -/

lemma processLoop_subset {msgs : List TgMessage} {processed : List Nat} {i : Nat}
    (h : i ∈ processed) : i ∈ (processLoop processed msgs).1 := by
  induction msgs generalizing processed with
  | nil => simpa [processLoop] using h
  | cons m rest ih =>
      simp only [processLoop]
      exact ih (mem_setAdd.mpr (Or.inl h))

lemma processLoop_mem_ids {msgs : List TgMessage} {processed : List Nat} {m : TgMessage}
    (h : m ∈ msgs) : m.id ∈ (processLoop processed msgs).1 := by
  induction msgs generalizing processed with
  | nil => simp at h
  | cons m0 rest ih =>
      rcases List.mem_cons.mp h with rfl | hmem
      · simp only [processLoop]
        exact processLoop_subset (mem_setAdd.mpr (Or.inr rfl))
      · simp only [processLoop]
        exact ih hmem

lemma processLoop_events_shape (msgs : List TgMessage) (processed : List Nat) :
    (processLoop processed msgs).2
      = msgs.flatMap (fun m => [PollEvent.processMsg m.id, PollEvent.markSeen m.id]) := by
  induction msgs generalizing processed with
  | nil => rfl
  | cons m rest ih => simp [processLoop, ih]

lemma processLoop_sublist {msgs : List TgMessage} {processed : List Nat} {i : Nat}
    (h : PollEvent.markSeen i ∈ (processLoop processed msgs).2) :
    List.Sublist [PollEvent.processMsg i, PollEvent.markSeen i] (processLoop processed msgs).2 := by
  induction msgs generalizing processed with
  | nil => simp [processLoop] at h
  | cons m rest ih =>
      simp only [processLoop] at h ⊢
      by_cases hi : i = m.id
      · subst hi
        exact List.Sublist.cons₂ _ (List.Sublist.cons₂ _ (List.nil_sublist _))
      · have hmem : PollEvent.markSeen i ∈ (processLoop (setAdd processed m.id) rest).2 := by
          rcases List.mem_cons.mp h with hc | h2
          · exact absurd hc (by simp [hi])
          · rcases List.mem_cons.mp h2 with hc | h3
            · exact absurd hc (by simp [hi])
            · exact h3
        exact List.Sublist.cons _ (List.Sublist.cons _ (ih hmem))

lemma isNewMessage_not_processed {processed : List Nat} {m : TgMessage}
    (h : isNewMessage processed m = true) : m.id ∉ processed := by
  unfold isNewMessage at h
  simp only [Bool.and_eq_true, Bool.not_eq_true] at h
  intro hmem
  have := h.1.2
  simp [hmem] at this

lemma pollChat_events_ids {processed : List Nat} {fetched : List TgMessage} {i : Nat}
    (h : PollEvent.processMsg i ∈ (pollChat processed fetched).2.2
       ∨ PollEvent.markSeen i ∈ (pollChat processed fetched).2.2) :
    ∃ m, m ∈ fetched.filter (isNewMessage processed) ∧ m.id = i := by
  have hshape := processLoop_events_shape
    (sortByDate (fetched.filter (isNewMessage processed))) processed
  rcases h with h | h
  all_goals {
    rw [show (pollChat processed fetched).2.2
        = (processLoop processed (sortByDate (fetched.filter (isNewMessage processed)))).2
      from rfl, hshape] at h
    simp only [List.mem_flatMap, List.mem_cons, List.not_mem_nil] at h
    obtain ⟨m, hm, hev⟩ := h
    refine ⟨m, ?_, ?_⟩
    · simpa [sortByDate] using hm
    · simp only [PollEvent.processMsg.injEq, PollEvent.markSeen.injEq,
        reduceCtorEq, or_false, false_or] at hev
      exact hev.symm
  }

lemma seedProcessed_subset {msgs : List TgMessage} {processed : List Nat} {i : Nat}
    (h : i ∈ processed) : i ∈ seedProcessed processed msgs := by
  induction msgs generalizing processed with
  | nil => simpa [seedProcessed] using h
  | cons m rest ih =>
      simp only [seedProcessed]
      split
      · exact ih (mem_setAdd.mpr (Or.inl h))
      · exact ih h

lemma seedProcessed_mem {msgs : List TgMessage} {processed : List Nat} {m : TgMessage}
    (hmem : m ∈ msgs) (hz : m.id ≠ 0) : m.id ∈ seedProcessed processed msgs := by
  induction msgs generalizing processed with
  | nil => simp at hmem
  | cons m0 rest ih =>
      rcases List.mem_cons.mp hmem with rfl | hm
      · simp only [seedProcessed, bne_iff_ne, ne_eq, hz, not_false_eq_true, if_true]
        exact seedProcessed_subset (mem_setAdd.mpr (Or.inr rfl))
      · simp only [seedProcessed]
        exact ih hm

lemma runPolling_keeps {batches : List (List TgMessage)} {processed : List Nat} {i : Nat}
    (h : i ∈ processed) :
    i ∈ (runPolling processed batches).1
    ∧ ∀ evs ∈ (runPolling processed batches).2, PollEvent.processMsg i ∉ evs := by
  induction batches generalizing processed with
  | nil => exact ⟨h, by simp [runPolling]⟩
  | cons batch rest ih =>
      have h1 : i ∈ (pollChat processed batch).1 := processLoop_subset h
      obtain ⟨a, b⟩ := ih h1
      refine ⟨a, ?_⟩
      intro evs hevs
      rcases List.mem_cons.mp hevs with rfl | hm
      · intro hin
        obtain ⟨m, hmf, hid⟩ := pollChat_events_ids (Or.inl hin)
        exact isNewMessage_not_processed (List.mem_filter.mp hmf).2 (hid ▸ h)
      · exact b evs hm

/-! Sorting facts for the poll-cycle ordering. -/

lemma sortByDate_sorted (l : List TgMessage) : List.Sorted dateLe (sortByDate l) :=
  List.sorted_insertionSort dateLe l

lemma sortByDate_perm (l : List TgMessage) : (sortByDate l).Perm l :=
  List.perm_insertionSort dateLe l

lemma sortByDate_eq_of_perm {l1 l2 : List TgMessage} (hp : l1.Perm l2)
    (hnd : List.Pairwise dateNe l1) : sortByDate l1 = sortByDate l2 := by
  have hperm : (sortByDate l1).Perm (sortByDate l2) :=
    (sortByDate_perm l1).trans (hp.trans (sortByDate_perm l2).symm)
  have hnd1 : List.Pairwise dateNe (sortByDate l1) :=
    ((sortByDate_perm l1).pairwise_iff (fun hxy => Ne.symm hxy)).mpr hnd
  have hnd2 : List.Pairwise dateNe (sortByDate l2) :=
    (hperm.pairwise_iff (fun hxy => Ne.symm hxy)).mp hnd1
  have hlt1 : List.Pairwise dateLt (sortByDate l1) :=
    ((sortByDate_sorted l1).and hnd1).imp (fun h => Nat.lt_of_le_of_ne h.1 h.2)
  have hlt2 : List.Pairwise dateLt (sortByDate l2) :=
    ((sortByDate_sorted l2).and hnd2).imp (fun h => Nat.lt_of_le_of_ne h.1 h.2)
  exact List.eq_of_perm_of_sorted hperm hlt1 hlt2

/-- C1 (amended): for a text that is non-empty after trimming, passes the
minimum-length check and hits no exclude-keyword, `filterMessage` forwards
exactly when some configured keyword is a substring of the normalized text,
`matchedKeywords` is exactly the subset of `config.keywords` contained in the
normalized text, and when no keyword matches the verdict is non-forward with
reason `"No keywords matched"` (the code capitalizes the reason string). -/
theorem filterMessage_keyword_subset (messageText : String) (config : MonitoringConfig)
    (h1 : (jsLength (jsTrim messageText) == 0) = false)
    (h2 : minLengthRejects config (normalizeText messageText) = false)
    (h3 : foundExcludeKeywords config (normalizeText messageText) = []) :
    ((filterMessage messageText config).shouldForward = true
       ↔ ∃ k ∈ config.keywords, jsIncludes (normalizeText messageText) k = true)
    ∧ (filterMessage messageText config).matchedKeywords
        = config.keywords.filter (fun k => jsIncludes (normalizeText messageText) k)
    ∧ ((∀ k ∈ config.keywords, jsIncludes (normalizeText messageText) k = false) →
        filterMessage messageText config
          = { shouldForward := false, matchedKeywords := [],
              reason := some "No keywords matched" }) := by
  have hf : filterMessage messageText config
      = keywordCheck config (normalizeText messageText) := by
    unfold filterMessage
    simp only [h1, Bool.false_eq_true, if_false]
    simp only [h2, Bool.false_eq_true, if_false]
    unfold excludeCheck
    cases hek : config.excludeKeywords with
    | none => rfl
    | some eks =>
        unfold foundExcludeKeywords at h3
        rw [hek] at h3
        dsimp only at h3
        simp only [h3, List.length_nil, lt_self_iff_false, if_false]
        split <;> rfl
  rw [hf]
  unfold keywordCheck
  by_cases hm :
      0 < (config.keywords.filter (fun k => jsIncludes (normalizeText messageText) k)).length
  · rw [if_pos hm]
    refine ⟨?_, rfl, ?_⟩
    · constructor
      · intro _
        obtain ⟨k, hk⟩ := List.exists_mem_of_ne_nil _ (List.length_pos.mp hm)
        obtain ⟨hk1, hk2⟩ := List.mem_filter.mp hk
        exact ⟨k, hk1, hk2⟩
      · intro _
        rfl
    · intro hall
      exfalso
      obtain ⟨k, hk⟩ := List.exists_mem_of_ne_nil _ (List.length_pos.mp hm)
      obtain ⟨hk1, hk2⟩ := List.mem_filter.mp hk
      rw [hall k hk1] at hk2
      exact Bool.noConfusion hk2
  · have hnil : config.keywords.filter (fun k => jsIncludes (normalizeText messageText) k) = [] := by
      rcases hq : config.keywords.filter (fun k => jsIncludes (normalizeText messageText) k) with _ | ⟨a, l⟩
      · rfl
      · rw [hq] at hm
        exact absurd (by simp) hm
    rw [if_neg hm]
    refine ⟨?_, hnil.symm, fun _ => rfl⟩
    constructor
    · intro hfalse
      exact Bool.noConfusion hfalse
    · intro ⟨k, hk1, hk2⟩
      have : k ∈ config.keywords.filter (fun k => jsIncludes (normalizeText messageText) k) :=
        List.mem_filter.mpr ⟨hk1, hk2⟩
      rw [hnil] at this
      simp at this

/-- C1 witness: the spec example, instantiating the theorem. -/
theorem filterMessage_keyword_subset_witness :
    ((filterMessage "FREE OFFER now" cfgC1).shouldForward = true
       ↔ ∃ k ∈ cfgC1.keywords, jsIncludes (normalizeText "FREE OFFER now") k = true)
    ∧ (filterMessage "FREE OFFER now" cfgC1).matchedKeywords
        = cfgC1.keywords.filter (fun k => jsIncludes (normalizeText "FREE OFFER now") k) :=
  ⟨(filterMessage_keyword_subset "FREE OFFER now" cfgC1 (by decide) (by decide) (by decide)).1,
   (filterMessage_keyword_subset "FREE OFFER now" cfgC1 (by decide) (by decide) (by decide)).2.1⟩

/-- C1 counterexample: the code's no-match reason string is
`"No keywords matched"`, not the claimed `"no keywords matched"`, at an
input satisfying all of the claim's conditions. -/
theorem filterMessage_reason_literal_cex :
    (filterMessage "hello there" cfgC1).shouldForward = false
    ∧ (filterMessage "hello there" cfgC1).reason = some "No keywords matched"
    ∧ (filterMessage "hello there" cfgC1).reason ≠ some "no keywords matched" := by
  decide

/-- C2: for a text non-empty after trimming that passes the minimum-length
check, any configured exclude-keyword contained in the normalized text forces
a non-forward verdict with empty `matchedKeywords`, regardless of matching
include-keywords. -/
theorem filterMessage_exclude_precedence (messageText : String) (config : MonitoringConfig)
    (eks : List String) (k : String)
    (h1 : (jsLength (jsTrim messageText) == 0) = false)
    (h2 : minLengthRejects config (normalizeText messageText) = false)
    (h3 : config.excludeKeywords = some eks) (h4 : k ∈ eks)
    (h5 : jsIncludes (normalizeText messageText) k = true) :
    (filterMessage messageText config).shouldForward = false
    ∧ (filterMessage messageText config).matchedKeywords = [] := by
  have hf : filterMessage messageText config = excludeCheck config (normalizeText messageText) := by
    unfold filterMessage
    simp only [h1, Bool.false_eq_true, if_false]
    simp only [h2, Bool.false_eq_true, if_false]
  rw [hf]
  unfold excludeCheck
  rw [h3]
  dsimp only
  have hlen : 0 < eks.length := List.length_pos.mpr (List.ne_nil_of_mem h4)
  rw [if_pos hlen]
  have hfound : k ∈ eks.filter (fun x => jsIncludes (normalizeText messageText) x) :=
    List.mem_filter.mpr ⟨h4, h5⟩
  have hflen : 0 < (eks.filter (fun x => jsIncludes (normalizeText messageText) x)).length :=
    List.length_pos.mpr (List.ne_nil_of_mem hfound)
  rw [if_pos hflen]
  exact ⟨rfl, rfl⟩

/-- C2 witness: the spec example `"great offer, spam"`. -/
theorem filterMessage_exclude_precedence_witness :
    (filterMessage "great offer, spam" cfgC2).shouldForward = false
    ∧ (filterMessage "great offer, spam" cfgC2).matchedKeywords = [] :=
  filterMessage_exclude_precedence "great offer, spam" cfgC2 ["spam"] "spam"
    (by decide) (by decide) (by decide) (by decide) (by decide)

/-- C9 (amended): an empty-after-trimming text yields the non-forward verdict
with reason `"Empty message"` (the code capitalizes the reason string); with
`minMessageLength = some m`, a normalized text strictly shorter than `m` is
rejected with the too-short reason regardless of keyword content, and a text
of length at least `m` is evaluated exactly as if no minimum were set. -/
theorem filterMessage_empty_and_min_length (messageText : String) (config : MonitoringConfig) :
    (jsLength (jsTrim messageText) = 0 →
      filterMessage messageText config
        = { shouldForward := false, matchedKeywords := [], reason := some "Empty message" })
    ∧ (∀ m, config.minMessageLength = some m →
        (jsLength (jsTrim messageText) ≠ 0 →
          jsLength (normalizeText messageText) < m →
          filterMessage messageText config
            = { shouldForward := false, matchedKeywords := [],
                reason := some ("Message too short ("
                  ++ toString (jsLength (normalizeText messageText))
                  ++ " < " ++ toString m ++ ")") })
        ∧ (m ≤ jsLength (normalizeText messageText) →
            filterMessage messageText config
              = filterMessage messageText { config with minMessageLength := none })) := by
  have hexc : excludeCheck { config with minMessageLength := none } (normalizeText messageText)
      = excludeCheck config (normalizeText messageText) := by
    cases hek : config.excludeKeywords <;>
      simp [excludeCheck, keywordCheck, hek]
  refine ⟨?_, ?_⟩
  · intro h
    unfold filterMessage
    have hb : (jsLength (jsTrim messageText) == 0) = true := by
      simpa using h
    rw [hb]
    rfl
  · intro m hm
    refine ⟨?_, ?_⟩
    · intro hne hlt
      have hb : (jsLength (jsTrim messageText) == 0) = false := by
        simpa using hne
      have h0 : 0 < m := Nat.lt_of_le_of_lt (Nat.zero_le _) hlt
      have hrej : minLengthRejects config (normalizeText messageText) = true := by
        unfold minLengthRejects
        rw [hm]
        simp [h0, hlt]
      unfold filterMessage
      simp only [hb, Bool.false_eq_true, if_false]
      simp only [hrej, if_true]
      rw [hm]
      rfl
    · intro hge
      have hrej : minLengthRejects config (normalizeText messageText) = false := by
        unfold minLengthRejects
        rw [hm]
        simp [Nat.not_lt_of_ge hge]
      have hrej2 : minLengthRejects { config with minMessageLength := none }
          (normalizeText messageText) = false := by
        unfold minLengthRejects
        rfl
      unfold filterMessage
      by_cases hz : (jsLength (jsTrim messageText) == 0) = true
      · rw [hz]
        rfl
      · have hb : (jsLength (jsTrim messageText) == 0) = false :=
          Bool.eq_false_iff.mpr hz
        simp only [hb, Bool.false_eq_true, if_false]
        simp only [hrej, hrej2, Bool.false_eq_true, if_false]
        exact hexc.symm

/-- C9 witness: the spec boundary example with `minMessageLength = 5`:
`"hi"` is rejected as too short, `"hello"` is evaluated normally. -/
theorem filterMessage_empty_and_min_length_witness :
    filterMessage "hi" cfgC9
      = { shouldForward := false, matchedKeywords := [],
          reason := some "Message too short (2 < 5)" }
    ∧ filterMessage "hello" cfgC9
      = filterMessage "hello" { cfgC9 with minMessageLength := none } :=
  ⟨by
    have h := ((filterMessage_empty_and_min_length "hi" cfgC9).2 5 rfl).1
      (by decide) (by decide)
    simpa using h,
   ((filterMessage_empty_and_min_length "hello" cfgC9).2 5 rfl).2 (by decide)⟩

/-- C9 counterexample: the code's empty-text reason string is
`"Empty message"`, not the claimed `"empty message"`. -/
theorem filterMessage_empty_reason_literal_cex :
    (filterMessage "   " cfgC1).shouldForward = false
    ∧ (filterMessage "   " cfgC1).reason = some "Empty message"
    ∧ (filterMessage "   " cfgC1).reason ≠ some "empty message" := by
  decide

/-- C8 (amended): `getMonitoringConfig` throws whenever `TARGET_CHATS`,
`KEYWORDS` or `TARGET_CHAT_ID` is unset or the empty string — and never
otherwise: with all three truthy it returns `parsedMonitoringConfig env`,
so an error occurs exactly in the falsy case. A returned configuration need
not satisfy the policy invariant: `targetChats` and `keywords` are the
comma-split, trimmed, nonempty-filtered token lists — possibly empty when a
variable holds only commas or whitespace — and `targetChatId` is the trimmed
raw value; each list is non-empty exactly when its variable yields at least
one non-empty token. -/
theorem getMonitoringConfig_validation (env : MonitoringEnv) :
    ((envFalsy env.targetChatsVar || envFalsy env.keywordsVar
        || envFalsy env.targetChatIdVar) = true →
      getMonitoringConfig env = Except.error "Missing required monitoring configuration. Please set TARGET_CHATS, KEYWORDS, and TARGET_CHAT_ID in environment variables.")
    ∧ ((envFalsy env.targetChatsVar || envFalsy env.keywordsVar
        || envFalsy env.targetChatIdVar) = false →
      getMonitoringConfig env = Except.ok (parsedMonitoringConfig env))
    ∧ ((∃ e, getMonitoringConfig env = Except.error e)
        ↔ (envFalsy env.targetChatsVar || envFalsy env.keywordsVar
            || envFalsy env.targetChatIdVar) = true)
    ∧ (∀ cfg, getMonitoringConfig env = Except.ok cfg →
        cfg.targetChats = splitCommaTrimmed (env.targetChatsVar.getD "")
        ∧ cfg.keywords = splitCommaTrimmedLower (env.keywordsVar.getD "")
        ∧ cfg.targetChatId = jsTrim (env.targetChatIdVar.getD "")
        ∧ (splitCommaTrimmed (env.targetChatsVar.getD "") ≠ [] → cfg.targetChats ≠ [])
        ∧ (splitCommaTrimmedLower (env.keywordsVar.getD "") ≠ [] → cfg.keywords ≠ [])) := by
  by_cases hcond : (envFalsy env.targetChatsVar || envFalsy env.keywordsVar
      || envFalsy env.targetChatIdVar) = true
  · have herr : getMonitoringConfig env
        = Except.error "Missing required monitoring configuration. Please set TARGET_CHATS, KEYWORDS, and TARGET_CHAT_ID in environment variables." := by
      unfold getMonitoringConfig
      rw [hcond]
      rfl
    refine ⟨fun _ => herr, ?_, ?_, ?_⟩
    · intro hfalse
      rw [hcond] at hfalse
      exact Bool.noConfusion hfalse
    · exact ⟨fun _ => hcond, fun _ => ⟨_, herr⟩⟩
    · intro cfg hcfg
      rw [herr] at hcfg
      exact Except.noConfusion hcfg
  · have hcond2 : (envFalsy env.targetChatsVar || envFalsy env.keywordsVar
        || envFalsy env.targetChatIdVar) = false := Bool.eq_false_iff.mpr hcond
    have hok : getMonitoringConfig env = Except.ok (parsedMonitoringConfig env) := by
      unfold getMonitoringConfig
      rw [hcond2]
      rfl
    refine ⟨?_, fun _ => hok, ?_, ?_⟩
    · intro h
      rw [h] at hcond2
      exact Bool.noConfusion hcond2
    · constructor
      · rintro ⟨e, he⟩
        rw [hok] at he
        exact Except.noConfusion he
      · intro h
        rw [h] at hcond2
        exact Bool.noConfusion hcond2
    · intro cfg hcfg
      rw [hok] at hcfg
      injection hcfg with h2
      subst h2
      exact ⟨rfl, rfl, rfl, fun hne => hne, fun hne => hne⟩

/-- Environment with `TARGET_CHATS` unset, for the C8 witness. -/
def envC8missing : MonitoringEnv :=
  { targetChatsVar := none, keywordsVar := some "offer", targetChatIdVar := some "out" }

/-- C8 witness: instantiating each clause — a missing variable throws, an
all-truthy environment returns `Except.ok` without throwing, and the
returned record carries the described fields. -/
theorem getMonitoringConfig_validation_witness :
    getMonitoringConfig envC8missing
      = Except.error "Missing required monitoring configuration. Please set TARGET_CHATS, KEYWORDS, and TARGET_CHAT_ID in environment variables."
    ∧ getMonitoringConfig envC8 = Except.ok (parsedMonitoringConfig envC8)
    ∧ cfgC8bad.targetChats = splitCommaTrimmed ((envC8.targetChatsVar).getD "") :=
  ⟨(getMonitoringConfig_validation envC8missing).1 (by decide),
   (getMonitoringConfig_validation envC8).2.1 (by decide),
   ((getMonitoringConfig_validation envC8).2.2.2 cfgC8bad (by rfl)).1⟩

/-- C8 counterexample: `TARGET_CHATS = ","` is truthy, so no error is thrown,
yet the returned configuration has an empty `targetChats` — the claimed
invariant does not hold for every returned value. -/
theorem getMonitoringConfig_empty_chats_cex :
    getMonitoringConfig envC8 = Except.ok cfgC8bad ∧ cfgC8bad.targetChats = [] :=
  ⟨rfl, rfl⟩

/-- C10 (amended): the delayed payload ignores the triggering message
entirely (same string for any original text, chat title and matched
keywords); it equals `config.delayedMessage` whenever that is set and
non-empty, and the fixed default otherwise (the empty string is falsy for
JS `||`, so a set-but-empty `delayedMessage` also falls back). -/
theorem createDelayedMessage_independent :
    (∀ (config : MonitoringConfig) a1 b1 (c1 : List String) a2 b2 (c2 : List String),
        createDelayedMessage config a1 b1 c1 = createDelayedMessage config a2 b2 c2)
    ∧ (∀ (config : MonitoringConfig) a b (c : List String) s,
        config.delayedMessage = some s → jsLength s ≠ 0 →
        createDelayedMessage config a b c = s)
    ∧ (∀ (config : MonitoringConfig) a b (c : List String),
        config.delayedMessage = none ∨ config.delayedMessage = some "" →
        createDelayedMessage config a b c = "Привет! Пиши в ЛС.") := by
  refine ⟨?_, ?_, ?_⟩
  · intro config a1 b1 c1 a2 b2 c2
    rfl
  · intro config a b c s hs hne
    unfold createDelayedMessage
    rw [hs]
    dsimp only
    have hb : (jsLength s == 0) = false := by simpa using hne
    rw [hb]
    rfl
  · intro config a b c h
    rcases h with h | h
    · unfold createDelayedMessage
      rw [h]
    · unfold createDelayedMessage
      rw [h]
      rfl

/-- C10 witness: instantiating payload independence and the non-empty case. -/
theorem createDelayedMessage_independent_witness :
    createDelayedMessage cfgC1 "some text" "Chat A" ["offer"]
      = createDelayedMessage cfgC1 "other text" "Chat B" []
    ∧ createDelayedMessage { cfgC1 with delayedMessage := some "ping" } "x" "y" []
      = "ping" :=
  ⟨createDelayedMessage_independent.1 cfgC1 "some text" "Chat A" ["offer"] "other text" "Chat B" [],
   createDelayedMessage_independent.2.1 { cfgC1 with delayedMessage := some "ping" }
     "x" "y" [] "ping" rfl (by decide)⟩

/-- C10 counterexample: with `DELAYED_MESSAGE` set to the empty string the
configuration stores `some ""`, yet the payload is the default, not the
configured (empty) string — "config.delayedMessage when set" fails at `""`. -/
theorem createDelayedMessage_empty_config_cex :
    getMonitoringConfig envC10 = Except.ok cfgC10
    ∧ cfgC10.delayedMessage = some ""
    ∧ createDelayedMessage cfgC10 "original" "Chat" ["offer"] = "Привет! Пиши в ЛС."
    ∧ createDelayedMessage cfgC10 "original" "Chat" ["offer"] ≠ "" :=
  ⟨rfl, rfl, rfl, by decide⟩

/-- C5: the per-chat processed-id set only grows (per cycle and across a
run), an id already in the set is never processed again in any cycle, every
seeded id with a truthy message id lands in the set, a marked id is in the
set at the end of its cycle (hence never reprocessed later), and within the
loop each id is marked seen only after its processing event. -/
theorem processedSet_monotone_dedup :
    (∀ processed fetched i, i ∈ processed → i ∈ (pollChat processed fetched).1)
    ∧ (∀ processed fetched i, i ∈ processed →
        PollEvent.processMsg i ∉ (pollChat processed fetched).2.2)
    ∧ (∀ processed batches i, i ∈ processed →
        i ∈ (runPolling processed batches).1
        ∧ ∀ evs ∈ (runPolling processed batches).2, PollEvent.processMsg i ∉ evs)
    ∧ (∀ processed msgs (m : TgMessage), m ∈ msgs → m.id ≠ 0 →
        m.id ∈ seedProcessed processed msgs)
    ∧ (∀ processed fetched i, PollEvent.markSeen i ∈ (pollChat processed fetched).2.2 →
        i ∈ (pollChat processed fetched).1)
    ∧ (∀ processed fetched i, PollEvent.markSeen i ∈ (pollChat processed fetched).2.2 →
        List.Sublist [PollEvent.processMsg i, PollEvent.markSeen i]
          (pollChat processed fetched).2.2) := by
  refine ⟨?_, ?_, ?_, ?_, ?_, ?_⟩
  · exact fun p f i h => processLoop_subset h
  · intro p f i h hin
    obtain ⟨m, hmf, hid⟩ := pollChat_events_ids (Or.inl hin)
    exact isNewMessage_not_processed (List.mem_filter.mp hmf).2 (hid ▸ h)
  · exact fun p bs i h => runPolling_keeps h
  · exact fun p msgs m hm hz => seedProcessed_mem hm hz
  · intro p f i h
    obtain ⟨m, hmf, hid⟩ := pollChat_events_ids (Or.inr h)
    have hms : m ∈ sortByDate (f.filter (isNewMessage p)) := by
      simpa [sortByDate] using hmf
    exact hid ▸ processLoop_mem_ids hms
  · exact fun p f i h => processLoop_sublist h

/-- C5 witness: seeding with messages 1 and 2, then polling a batch that
refetches them plus a new message 7. -/
theorem processedSet_monotone_dedup_witness :
    (1 : Nat) ∈
      (pollChat (seedProcessed [] [{ id := 1, text := "a", date := 1 },
        { id := 2, text := "b", date := 2 }])
        [{ id := 1, text := "a", date := 1 }, { id := 7, text := "c", date := 7 }]).1
    ∧ PollEvent.processMsg 1 ∉
      (pollChat (seedProcessed [] [{ id := 1, text := "a", date := 1 },
        { id := 2, text := "b", date := 2 }])
        [{ id := 1, text := "a", date := 1 }, { id := 7, text := "c", date := 7 }]).2.2
    ∧ List.Sublist [PollEvent.processMsg 7, PollEvent.markSeen 7]
      (pollChat (seedProcessed [] [{ id := 1, text := "a", date := 1 },
        { id := 2, text := "b", date := 2 }])
        [{ id := 1, text := "a", date := 1 }, { id := 7, text := "c", date := 7 }]).2.2 :=
  ⟨processedSet_monotone_dedup.1 _ _ 1
      (processedSet_monotone_dedup.2.2.2.1 [] _ { id := 1, text := "a", date := 1 }
        (by decide) (by decide)),
   processedSet_monotone_dedup.2.1 _ _ 1
      (processedSet_monotone_dedup.2.2.2.1 [] _ { id := 1, text := "a", date := 1 }
        (by decide) (by decide)),
   processedSet_monotone_dedup.2.2.2.2.2 _ _ 7 (by decide)⟩

/-- C6: within one cycle the processing order is sorted by ascending
timestamp, it is a permutation of the new messages, the event trace
interleaves processing and marking in exactly that order, and when the new
messages have pairwise-distinct timestamps the order is independent of the
order in which the fetch returned the messages. -/
theorem pollChat_ordering :
    (∀ processed fetched, List.Sorted dateLe (pollChat processed fetched).2.1)
    ∧ (∀ processed fetched,
        ((pollChat processed fetched).2.1).Perm (fetched.filter (isNewMessage processed)))
    ∧ (∀ processed fetched, (pollChat processed fetched).2.2
        = ((pollChat processed fetched).2.1).flatMap
            (fun m => [PollEvent.processMsg m.id, PollEvent.markSeen m.id]))
    ∧ (∀ processed fetched fetched2, fetched.Perm fetched2 →
        List.Pairwise dateNe (fetched.filter (isNewMessage processed)) →
        (pollChat processed fetched2).2.1 = (pollChat processed fetched).2.1) := by
  refine ⟨?_, ?_, ?_, ?_⟩
  · exact fun p f => sortByDate_sorted _
  · exact fun p f => sortByDate_perm _
  · exact fun p f => processLoop_events_shape _ _
  · intro p f g hp hnd
    exact (sortByDate_eq_of_perm (hp.filter _) hnd).symm

/-- C6 witness: three out-of-order messages are processed in ascending
timestamp order, and a reshuffled fetch yields the same order. -/
theorem pollChat_ordering_witness :
    List.Sorted dateLe (pollChat [] msgsC6).2.1
    ∧ (pollChat [] (msgsC6.reverse)).2.1 = (pollChat [] msgsC6).2.1 :=
  ⟨pollChat_ordering.1 [] msgsC6,
   pollChat_ordering.2.2.2 [] msgsC6 msgsC6.reverse
     (List.reverse_perm msgsC6).symm (by decide)⟩

/-- C7 (amended): every poll cycle attempts every configured target chat —
including chats that were unreachable at startup, since `validateTargetChats`
discards its list of accessible chats; a chat contributes processed messages
to a cycle only while it is accessible in that cycle, and startup validation
fails only when no configured chat is accessible. -/
theorem pollCycle_attempts_all_chats :
    (∀ chats accessible fetch st,
        (pollTargetChatsCycle chats accessible fetch st).2.1 = chats)
    ∧ (∀ chats accessible fetch,
        ∀ (st : List (String × List Nat)) (c : String), accessible c = false →
        ∀ pr ∈ (pollTargetChatsCycle chats accessible fetch st).2.2, pr.1 ≠ c)
    ∧ (∀ accessible chats,
        validateTargetChats accessible chats
            = Except.error "No accessible target chats found in TARGET_CHATS env"
          ↔ chats.filter accessible = []) := by
  refine ⟨?_, ?_, ?_⟩
  · intro chats acc fetch
    induction chats with
    | nil => intro st; rfl
    | cons c0 rest ih =>
        intro st
        simp only [pollTargetChatsCycle]
        split
        · simp only [List.cons.injEq, true_and]
          exact ih _
        · simp only [List.cons.injEq, true_and]
          exact ih _
  · intro chats acc fetch
    induction chats with
    | nil =>
        intro st c hc pr hpr
        simp [pollTargetChatsCycle] at hpr
    | cons c0 rest ih =>
        intro st c hc pr hpr
        simp only [pollTargetChatsCycle] at hpr
        by_cases h0 : acc c0 = true
        · rw [if_pos h0] at hpr
          rcases List.mem_cons.mp hpr with rfl | hm
          · intro heq
            dsimp at heq
            rw [heq, hc] at h0
            exact Bool.noConfusion h0
          · exact ih _ c hc pr hm
        · rw [if_neg h0] at hpr
          exact ih _ c hc pr hpr
  · intro acc chats
    unfold validateTargetChats
    by_cases h : (chats.filter acc).length == 0
    · rw [if_pos h]
      have : chats.filter acc = [] := by
        have hl : (chats.filter acc).length = 0 := by simpa using h
        exact List.length_eq_zero.mp hl
      simp [this]
    · rw [if_neg h]
      constructor
      · intro hok
        exact Except.noConfusion hok
      · intro hnil
        exfalso
        rw [hnil] at h
        simp at h

/-- C7 witness: the amended behaviour on the concrete two-chat scenario. -/
theorem pollCycle_attempts_all_chats_witness :
    (pollTargetChatsCycle ["a", "b"] accStartC7 fetchC7 []).2.1 = ["a", "b"]
    ∧ (∀ pr ∈ (pollTargetChatsCycle ["a", "b"] accStartC7 fetchC7 []).2.2, pr.1 ≠ "b")
    ∧ (validateTargetChats accStartC7 ["a", "b"]
          = Except.error "No accessible target chats found in TARGET_CHATS env"
        ↔ (["a", "b"].filter accStartC7) = []) :=
  ⟨pollCycle_attempts_all_chats.1 ["a", "b"] accStartC7 fetchC7 [],
   pollCycle_attempts_all_chats.2.1 ["a", "b"] accStartC7 fetchC7 [] "b" (by decide),
   pollCycle_attempts_all_chats.2.2 accStartC7 ["a", "b"]⟩

/-- C7 counterexample: chat `b` is unreachable at the startup check (which
passes, since `a` is reachable), yet the very first cycle still attempts
`b`, and once `b` becomes reachable a later cycle fetches and processes its
messages — the claim that it is never fetched or processed again fails. -/
theorem pollCycle_revalidates_cex :
    validateTargetChats accStartC7 ["a", "b"] = Except.ok ["a"]
    ∧ accStartC7 "b" = false
    ∧ (pollTargetChatsCycle ["a", "b"] accStartC7 fetchC7 []).2.1 = ["a", "b"]
    ∧ ("b", [msgB]) ∈ (pollTargetChatsCycle ["a", "b"] accLaterC7 fetchC7 stCycle0C7).2.2 := by
  refine ⟨rfl, rfl, rfl, ?_⟩
  decide

/-- C3: the success path behaves as specified (one attempt, task removed),
but the retry path does not — after one failed attempt the `finally` block
has cancelled the retry timer `scheduleRetry` just armed (`armed = []` and
`timers = []`), the task is left `pending` with `attempts = 1`, and along
every subsequent sequence of scheduler events no second send attempt for
the task ever occurs and the task never reaches `failed`: the specified
`pending → pending → pending → failed` run of exactly three attempts is
unreachable. -/
theorem delayedRetry_cancelled_by_finally :
    getTask stFail1 "dm_1" = some pendingStuckTask
    ∧ pendingStuckTask.status = TaskStatus.pending
    ∧ pendingStuckTask.attempts = 1
    ∧ stFail1.armed = []
    ∧ stFail1.timers = []
    ∧ stFail1.attemptLog = ["dm_1"]
    ∧ (∀ st3, SchedReach stFail1 st3 →
        st3.attemptLog.count "dm_1" = 1
        ∧ (getTask st3 "dm_1" = some pendingStuckTask ∨ getTask st3 "dm_1" = none))
    ∧ getTask stOk1 "dm_1" = none
    ∧ stOk1.attemptLog = ["dm_1"] := by
  refine ⟨by decide, by decide, by decide, by decide, by decide, by decide, ?_,
    by decide, by decide⟩
  intro st3 hr
  have h1 : "dm_1" ∉ stFail1.armed := by decide
  have h2 : "dm_1" ∈ stFail1.usedIds := by decide
  obtain ⟨_, _, hc, hp⟩ := frozen_reach h1 h2 hr
  refine ⟨?_, ?_⟩
  · rw [hc]
    decide
  · unfold getTask
    rcases hp with hp | hp
    · left
      rw [hp]
      decide
    · right
      exact hp

/-- C3 witness: instantiating the reachability clause at the failed state
itself. -/
theorem delayedRetry_cancelled_by_finally_witness :
    stFail1.attemptLog.count "dm_1" = 1
    ∧ (getTask stFail1 "dm_1" = some pendingStuckTask ∨ getTask stFail1 "dm_1" = none) :=
  delayedRetry_cancelled_by_finally.2.2.2.2.2.2.1 stFail1 Relation.ReflTransGen.refl

/-- C4: `cancelDelayedMessage` returns `true` exactly when the task is in
the live table; on an absent task it is a no-op returning `false`; a task
that reached a terminal state inside `executeDelayedMessage` (success, or
failure at the attempt bound) is already removed, so a subsequent cancel is
a no-op returning `false`; and schedule-immediately-followed-by-cancel
leaves the task unarmed and absent, after which no sequence of scheduler
events can ever produce a send attempt for that task id. -/
theorem cancelDelayedMessage_semantics :
    (∀ st taskId, (cancelDelayedMessage st taskId).2
        = (alookup st.pendingMessages taskId).isSome)
    ∧ (∀ st taskId, alookup st.pendingMessages taskId = none →
        cancelDelayedMessage st taskId = (st, false))
    ∧ (∀ st taskId task sendOk, alookup st.pendingMessages taskId = some task →
        (sendOk = true ∨ task.maxAttempts ≤ task.attempts + 1) →
        getTask (executeDelayedMessage st taskId sendOk) taskId = none
        ∧ cancelDelayedMessage (executeDelayedMessage st taskId sendOk) taskId
            = (executeDelayedMessage st taskId sendOk, false))
    ∧ (∀ st taskId tu tc msg dm now om,
        (cancelDelayedMessage (scheduleDelayedMessage st taskId tu tc msg dm now om) taskId).2
            = true
        ∧ getTask (cancelDelayedMessage
              (scheduleDelayedMessage st taskId tu tc msg dm now om) taskId).1 taskId = none
        ∧ taskId ∉ (cancelDelayedMessage
              (scheduleDelayedMessage st taskId tu tc msg dm now om) taskId).1.armed
        ∧ ∀ st3, SchedReach (cancelDelayedMessage
              (scheduleDelayedMessage st taskId tu tc msg dm now om) taskId).1 st3 →
            st3.attemptLog.count taskId = st.attemptLog.count taskId) := by
  have hcancel_none : ∀ (st : SchedulerState) (taskId : String),
      alookup st.pendingMessages taskId = none →
      cancelDelayedMessage st taskId = (st, false) := by
    intro st taskId h
    unfold cancelDelayedMessage
    rw [h]
  refine ⟨?_, hcancel_none, ?_, ?_⟩
  · intro st taskId
    unfold cancelDelayedMessage
    cases h : alookup st.pendingMessages taskId <;> rfl
  · intro st taskId task sendOk hl hterm
    have hterm2 : ((executeTask2 (bumpAttempts task) sendOk).status == TaskStatus.sent
        || (executeTask2 (bumpAttempts task) sendOk).status == TaskStatus.failed) = true := by
      rcases hterm with rfl | hge
      · simp [executeTask2]
      · have hnlt : ¬ ((bumpAttempts task).attempts < (bumpAttempts task).maxAttempts) := by
          unfold bumpAttempts
          dsimp
          omega
        cases sendOk
        · simp [executeTask2, hnlt]
        · simp [executeTask2]
    have hnone : getTask (executeDelayedMessage st taskId sendOk) taskId = none := by
      unfold getTask executeDelayedMessage
      rw [hl]
      unfold executeAfter
      dsimp only
      rw [if_pos hterm2]
      exact alookup_amapDelete_self _ _
    exact ⟨hnone, hcancel_none _ _ hnone⟩
  · intro st taskId tu tc msg dm now om
    have hl : alookup (scheduleDelayedMessage st taskId tu tc msg dm now om).pendingMessages
        taskId = some (newDelayedTask taskId tu tc msg dm now om) :=
      alookup_amapSet_self _ _ _
    have hcanc :
        cancelDelayedMessage (scheduleDelayedMessage st taskId tu tc msg dm now om) taskId
          = ({ pendingMessages := amapDelete
                (scheduleDelayedMessage st taskId tu tc msg dm now om).pendingMessages taskId
               timers := if (scheduleDelayedMessage st taskId tu tc msg dm now om).timers.contains
                    taskId then
                  keyRemove (scheduleDelayedMessage st taskId tu tc msg dm now om).timers taskId
                else (scheduleDelayedMessage st taskId tu tc msg dm now om).timers
               armed := if (scheduleDelayedMessage st taskId tu tc msg dm now om).timers.contains
                    taskId then
                  keyRemove (scheduleDelayedMessage st taskId tu tc msg dm now om).armed taskId
                else (scheduleDelayedMessage st taskId tu tc msg dm now om).armed
               usedIds := (scheduleDelayedMessage st taskId tu tc msg dm now om).usedIds
               attemptLog := (scheduleDelayedMessage st taskId tu tc msg dm now om).attemptLog },
             true) := by
      unfold cancelDelayedMessage
      rw [hl]
    have harm : taskId ∉ (cancelDelayedMessage
        (scheduleDelayedMessage st taskId tu tc msg dm now om) taskId).1.armed := by
      rw [hcanc]
      dsimp only
      split
      · intro hm
        exact (mem_keyRemove.mp hm).2 rfl
      · intro hm
        rename_i hcont
        apply hcont
        have : taskId ∈ (scheduleDelayedMessage st taskId tu tc msg dm now om).timers :=
          mem_keyAdd.mpr (Or.inr rfl)
        simpa using this
    have hused : taskId ∈ (cancelDelayedMessage
        (scheduleDelayedMessage st taskId tu tc msg dm now om) taskId).1.usedIds := by
      rw [hcanc]
      exact mem_keyAdd.mpr (Or.inr rfl)
    refine ⟨by rw [hcanc], ?_, harm, ?_⟩
    · rw [hcanc]
      exact alookup_amapDelete_self _ _
    · intro st3 hr
      obtain ⟨_, _, hc, _⟩ := frozen_reach harm hused hr
      rw [hc, hcanc]
      rfl

/-- C4 witness: instantiating each clause at concrete scheduler states. -/
theorem cancelDelayedMessage_semantics_witness :
    (cancelDelayedMessage stSched "dm_1").2 = (alookup stSched.pendingMessages "dm_1").isSome
    ∧ cancelDelayedMessage stOk1 "dm_1" = (stOk1, false)
    ∧ getTask (executeDelayedMessage stSched "dm_1" true) "dm_1" = none
    ∧ (cancelDelayedMessage
        (scheduleDelayedMessage initialSchedulerState "dm_9" "u" "c" "m" 5 0 om0) "dm_9").2
      = true :=
  ⟨cancelDelayedMessage_semantics.1 stSched "dm_1",
   cancelDelayedMessage_semantics.2.1 stOk1 "dm_1" (by decide),
   (cancelDelayedMessage_semantics.2.2.1 stSched "dm_1"
      (newDelayedTask "dm_1" "user1" "chat1" "hi" 30 0 om0) true (by decide) (Or.inl rfl)).1,
   (cancelDelayedMessage_semantics.2.2.2 initialSchedulerState "dm_9" "u" "c" "m" 5 0 om0).1⟩
